import Mathlib

/-!
# Domain service of the GleSYS API client (domains.go)

A shallow embedding of `DomainService` and of the values it hands to its
collaborator `clientInterface`, followed by the properties of the service.

* Go `string` is `String`, Go `int` is `Int` (no arithmetic is done on it),
  Go `error` is `Option Error` with `none` the nil error, a pointer result
  `*T` is `Option T` with `none` the nil pointer, a slice is a `List`.
* The collaborator is stateful: its methods take the collaborator state and
  give the new state back, together with the value the destination holds
  after the call and the error.
* The body given to `post` is the Go struct value, described field by field
  the way reflection sees it; `Marshal` is the JSON object encoding/json
  writes for it.
-/

namespace Glesys

/-! ## Go values -/

/-- A non-nil value of the Go interface `error`. -/
structure Error where
  msg : String
deriving DecidableEq, Repr

/-- The `context.Context` handed through to the collaborator. -/
structure Context where
  done : Bool
deriving DecidableEq, Repr

/-- A value of type `interface{}` as encoding/json fills it in. -/
inductive Any where
  | nil
  | bool (b : Bool)
  | number (literal : String)
  | string (s : String)
  | array (xs : List Any)
  | object (members : List (String × Any))

/-- A Go slice `[]T`. -/
abbrev Slice (α : Type) : Type := List α

/-- A `time.Time`; the zero value is the zero instant. -/
structure Time where
  nanos : Int := 0
deriving DecidableEq, Repr

/-! ## encoding/json view of a struct value -/

/-- The value of a struct field of the request bodies (all are `string` or `int`). -/
inductive Value where
  | string (s : String)
  | int (i : Int)
deriving DecidableEq, Repr

/-- One field of a struct value as reflection lists it: the Go field name, the
name given by its json tag (empty when the tag names none), the omitempty
option of the tag, how many embedded structs it is reached through, and the
value it holds. -/
structure StructField where
  name : String
  tag : String
  omitEmpty : Bool
  depth : Nat
  value : Value
deriving DecidableEq, Repr

/-- A Go field is exported when its name starts with an upper case letter. -/
def StructField.exported (f : StructField) : Bool :=
  match f.name.data with
  | [] => false
  | c :: _ => c.isUpper

/-- Whether the json tag of the field gives a name. -/
def StructField.tagged (f : StructField) : Bool :=
  f.tag != ""

/-- The JSON key of a field: the tag name, else the Go field name. -/
def StructField.key (f : StructField) : String :=
  if f.tag = "" then f.name else f.tag

/-- The empty values that omitempty leaves out. -/
def Value.isEmptyValue : Value → Bool
  | .string s => s == ""
  | .int i => i == 0

/-- The fields of an embedded struct, seen from the embedding struct. -/
def embedded (fs : List StructField) : List StructField :=
  fs.map fun f => { f with depth := f.depth + 1 }

/-- The least element of a list of depths (0 for the empty list). -/
def minDepth : List Nat → Nat
  | [] => 0
  | d :: ds => ds.foldl min d

/-- Field selection of encoding/json among the exported fields `fs` of a struct:
of the fields with the key of `f`, only those at the least depth count; if some
of them are tagged only the tagged ones count; the field is kept when it is the
single one that counts. -/
def dominant (fs : List StructField) (f : StructField) : Bool :=
  let group := fs.filter fun g => g.key == f.key
  let least := minDepth (group.map fun g => g.depth)
  let level := group.filter fun g => g.depth == least
  let tagged := level.filter fun g => g.tagged
  f.depth == least &&
    (if tagged.isEmpty then level.length == 1 else f.tagged && tagged.length == 1)

/-- The fields encoding/json writes for a struct: exported and dominant. -/
def typeFields (fs : List StructField) : List StructField :=
  let exported := fs.filter fun f => f.exported
  exported.filter fun f => dominant exported f

/-- The JSON object written for a struct value, as its members in order. -/
def Marshal (fs : List StructField) : List (String × Value) :=
  (typeFields fs).filterMap fun f =>
    if f.omitEmpty && f.value.isEmptyValue then none else some (f.key, f.value)

/-- The values a JSON object holds under a key. -/
def lookupAll (key : String) (obj : List (String × Value)) : List Value :=
  (obj.filter fun m => m.1 == key).map fun m => m.2

/-! ## Data model -/

/-- The anonymous struct `RegistrarInfo` of `Domain`. -/
structure RegistrarInfo where
  State : String := ""
  StateDescription : String := ""
  Expire : String := ""
  AutoRenew : String := ""
  TLD : String := ""
  InvoiceNumber : Any := Any.nil

/-- Domain represents a domain. -/
structure Domain where
  DomainName : String := ""
  CreateTime : Time := {}
  DisplayName : String := ""
  RecordCount : Int := 0
  RegistrarInfo : RegistrarInfo := {}

/-- DomainRecord represents a DNS record (the Go field `Type` is `Type_` here). -/
structure DomainRecord where
  Recordid : Int := 0
  Domainname : String := ""
  Host : String := ""
  Type_ : String := ""
  Data : String := ""
  TTL : Int := 0
deriving DecidableEq, Repr

/-- AddDomainParams is used when creating a new domain. -/
structure AddDomainParams where
  DomainName : String := ""
  PrimaryNameServer : String := ""
  ResponsiblePerson : String := ""
  TTL : String := ""
  Refresh : String := ""
  Retry : String := ""
  Expire : String := ""
  Minimum : String := ""
  CreateRecords : Int := 0
deriving DecidableEq, Repr

/-- AddDomainRecordParams is used when creating a new record (the Go field `Type` is `Type_` here). -/
structure AddDomainRecordParams where
  DomainName : String := ""
  Host : String := ""
  Type_ : String := ""
  Data : String := ""
  TTL : Int := 0
deriving DecidableEq, Repr

/-- EditDomainParams is used when updating an existing domain. -/
structure EditDomainParams where
  DomainName : String := ""
  PrimaryNameServer : String := ""
  ResponsiblePerson : String := ""
  TTL : String := ""
  Refresh : String := ""
  Retry : String := ""
  Expire : String := ""
  Minimum : String := ""
deriving DecidableEq, Repr

/-- UpdateDomainRecordParams is used when updating an existing DNS record (the Go field `Type` is `Type_` here). -/
structure UpdateDomainRecordParams where
  RecordId : Int := 0
  Host : String := ""
  Type_ : String := ""
  Data : String := ""
  TTL : Int := 0
deriving DecidableEq, Repr

/-- The fields of an `AddDomainParams` value with their json tags. -/
def AddDomainParams.fields (p : AddDomainParams) : List StructField :=
  [ ⟨"DomainName", "domainname", false, 0, .string p.DomainName⟩,
    ⟨"PrimaryNameServer", "primarynameserver", true, 0, .string p.PrimaryNameServer⟩,
    ⟨"ResponsiblePerson", "responsibleperson", true, 0, .string p.ResponsiblePerson⟩,
    ⟨"TTL", "ttl", true, 0, .string p.TTL⟩,
    ⟨"Refresh", "refresh", true, 0, .string p.Refresh⟩,
    ⟨"Retry", "retry", true, 0, .string p.Retry⟩,
    ⟨"Expire", "expire", true, 0, .string p.Expire⟩,
    ⟨"Minimum", "minimum", true, 0, .string p.Minimum⟩,
    ⟨"CreateRecords", "createrecords", false, 0, .int p.CreateRecords⟩ ]

/-- The fields of an `AddDomainRecordParams` value with their json tags. -/
def AddDomainRecordParams.fields (p : AddDomainRecordParams) : List StructField :=
  [ ⟨"DomainName", "domainname", false, 0, .string p.DomainName⟩,
    ⟨"Host", "host", false, 0, .string p.Host⟩,
    ⟨"Type", "type", false, 0, .string p.Type_⟩,
    ⟨"Data", "data", false, 0, .string p.Data⟩,
    ⟨"TTL", "ttl", true, 0, .int p.TTL⟩ ]

/-- The fields of an `EditDomainParams` value with their json tags. -/
def EditDomainParams.fields (p : EditDomainParams) : List StructField :=
  [ ⟨"DomainName", "domainname", false, 0, .string p.DomainName⟩,
    ⟨"PrimaryNameServer", "primarynameserver", false, 0, .string p.PrimaryNameServer⟩,
    ⟨"ResponsiblePerson", "responsibleperson", false, 0, .string p.ResponsiblePerson⟩,
    ⟨"TTL", "ttl", false, 0, .string p.TTL⟩,
    ⟨"Refresh", "refresh", false, 0, .string p.Refresh⟩,
    ⟨"Retry", "retry", false, 0, .string p.Retry⟩,
    ⟨"Expire", "expire", false, 0, .string p.Expire⟩,
    ⟨"Minimum", "minimum", false, 0, .string p.Minimum⟩ ]

/-- The fields of an `UpdateDomainRecordParams` value with their json tags. -/
def UpdateDomainRecordParams.fields (p : UpdateDomainRecordParams) : List StructField :=
  [ ⟨"RecordId", "domainname", false, 0, .int p.RecordId⟩,
    ⟨"Host", "primarynameserver", false, 0, .string p.Host⟩,
    ⟨"Type", "responsibleperson", false, 0, .string p.Type_⟩,
    ⟨"Data", "ttl", false, 0, .string p.Data⟩,
    ⟨"TTL", "refresh", false, 0, .int p.TTL⟩ ]

/-! ## Destinations of the collaborator calls -/

/-- The inner struct `Response struct { Domain Domain }`. -/
structure DomainResponse where
  Domain : Domain := {}

/-- The destination `struct { Response struct { Domain Domain } }`. -/
structure DomainData where
  Response : DomainResponse := {}

/-- The inner struct `Response struct { DomainRecord DomainRecord }`. -/
structure DomainRecordResponse where
  DomainRecord : DomainRecord := {}

/-- The destination `struct { Response struct { DomainRecord DomainRecord } }`. -/
structure DomainRecordData where
  Response : DomainRecordResponse := {}

/-- The inner struct `Response struct { Domains []Domain }`. -/
structure DomainsResponse where
  Domains : Slice Domain := []

/-- The destination `struct { Response struct { Domains []Domain } }`. -/
structure DomainsData where
  Response : DomainsResponse := {}

/-- The inner struct `Response struct { DomainRecord []DomainRecord }`. -/
structure DomainRecordsResponse where
  DomainRecord : Slice DomainRecord := []

/-- The destination `struct { Response struct { DomainRecord []DomainRecord } }`. -/
structure DomainRecordsData where
  Response : DomainRecordsResponse := {}

/-- The kinds of destination argument the service passes: nil, or the address
of one of the four envelope structs. -/
inductive DestKind where
  | nil
  | domain
  | domainRecord
  | domains
  | domainRecords
deriving DecidableEq, Repr

/-- The type of the value a destination of a given kind points at. -/
def DestKind.Target : DestKind → Type
  | .nil => Unit
  | .domain => DomainData
  | .domainRecord => DomainRecordData
  | .domains => DomainsData
  | .domainRecords => DomainRecordsData

/-- The collaborator `clientInterface`: `get(ctx, path, dest)` and
`post(ctx, path, dest, body)`. Each takes the collaborator state and the value
the destination points at, and gives back the new state, the value the
destination points at after the call, and the error. -/
structure clientInterface (σ : Type) where
  get : σ → Context → String → (k : DestKind) → k.Target → σ × k.Target × Option Error
  post : σ → Context → String → (k : DestKind) → k.Target → List StructField →
    σ × k.Target × Option Error

/-- The value of `idna.New()`: its method `ToASCII` gives a string and an error. -/
structure Profile where
  ToASCII : String → String × Option Error

/-- DomainService provides functions to interact with domains. -/
structure DomainService (σ : Type) where
  client : clientInterface σ

/-! ## The operations of DomainService -/

variable {σ : Type}

/-- AddDomain adds a new domain. -/
def DomainService.AddDomain (idna : Profile) (s : DomainService σ) (st : σ) (context : Context)
    (params : AddDomainParams) : σ × Option Domain × Option Error :=
  let params := { params with DomainName := (idna.ToASCII params.DomainName).1 }
  let data : DomainData := {}
  let r := s.client.post st context "domain/add" .domain data params.fields
  let data : DomainData := r.2.1
  (r.1, some data.Response.Domain, r.2.2)

/-- AddRecord adds a new DNS record. -/
def DomainService.AddRecord (_idna : Profile) (s : DomainService σ) (st : σ) (context : Context)
    (params : AddDomainRecordParams) : σ × Option DomainRecord × Option Error :=
  let data : DomainRecordData := {}
  let r := s.client.post st context "domain/addrecord" .domainRecord data params.fields
  let data : DomainRecordData := r.2.1
  (r.1, some data.Response.DomainRecord, r.2.2)

/-- Details returns detailed information about one domain. -/
def DomainService.Details (idna : Profile) (s : DomainService σ) (st : σ) (context : Context)
    (domainname : String) : σ × Option Domain × Option Error :=
  let domainname := (idna.ToASCII domainname).1
  let data : DomainData := {}
  let r := s.client.get st context ("domain/details/domainname/" ++ domainname) .domain data
  let data : DomainData := r.2.1
  (r.1, some data.Response.Domain, r.2.2)

/-- DeleteDomain posts the anonymous struct holding the domain name. -/
def DomainService.DeleteDomain (idna : Profile) (s : DomainService σ) (st : σ)
    (context : Context) (domainname : String) : σ × Option Error :=
  let domainname := (idna.ToASCII domainname).1
  let r := s.client.post st context "domain/delete" .nil ()
    [⟨"DomainName", "domainname", false, 0, .string domainname⟩]
  (r.1, r.2.2)

/-- DeleteRecord posts the anonymous struct holding the record id. -/
def DomainService.DeleteRecord (_idna : Profile) (s : DomainService σ) (st : σ)
    (context : Context) (recordID : Int) : σ × Option Error :=
  let r := s.client.post st context "domain/deleterecord" .nil ()
    [⟨"recordID", "recordid", false, 0, .int recordID⟩]
  (r.1, r.2.2)

/-- EditDomain modifies a domain. -/
def DomainService.EditDomain (idna : Profile) (s : DomainService σ) (st : σ) (context : Context)
    (domainname : String) (params : EditDomainParams) : σ × Option Domain × Option Error :=
  let domainname := (idna.ToASCII domainname).1
  let params := { params with DomainName := (idna.ToASCII params.DomainName).1 }
  let data : DomainData := {}
  let r := s.client.post st context "domain/edit" .domain data
    (embedded params.fields ++ [⟨"DomainName", "domainname", false, 0, .string domainname⟩])
  let data : DomainData := r.2.1
  (r.1, some data.Response.Domain, r.2.2)

/-- UpdateRecord modifies a DNS record. -/
def DomainService.UpdateRecord (_idna : Profile) (s : DomainService σ) (st : σ)
    (context : Context) (recordID : Int) (params : UpdateDomainRecordParams) :
    σ × Option DomainRecord × Option Error :=
  let data : DomainRecordData := {}
  let r := s.client.post st context "domain/updaterecord" .domainRecord data
    (embedded params.fields ++ [⟨"recordID", "recordid", false, 0, .int recordID⟩])
  let data : DomainRecordData := r.2.1
  (r.1, some data.Response.DomainRecord, r.2.2)

/-- List returns a list of domains available under your account. -/
def DomainService.List (_idna : Profile) (s : DomainService σ) (st : σ) (context : Context) :
    σ × Option (Slice Domain) × Option Error :=
  let data : DomainsData := {}
  let r := s.client.get st context "domain/list" .domains data
  let data : DomainsData := r.2.1
  (r.1, some data.Response.Domains, r.2.2)

/-- ListRecords posts the anonymous struct holding the domain name. -/
def DomainService.ListRecords (_idna : Profile) (s : DomainService σ) (st : σ)
    (context : Context) (domainname : String) :
    σ × Option (Slice DomainRecord) × Option Error :=
  let data : DomainRecordsData := {}
  let r := s.client.post st context "domain/listrecords" .domainRecords data
    [⟨"DomainName", "domainname", false, 0, .string domainname⟩]
  let data : DomainRecordsData := r.2.1
  (r.1, some data.Response.DomainRecord, r.2.2)

/-! ## A collaborator that records its calls -/

/-- One call received by the collaborator: the verb, the path, the body value
for `post`, and the error the collaborator returned from the call. -/
structure Call where
  method : String
  path : String
  body : Option (List StructField)
  err : Option Error
deriving DecidableEq, Repr

/-- The collaborator `c` with a log of the calls it receives in front of its
state: `get` logs a GET and `post` a POST, each with the error `c` answers. -/
def recording (c : clientInterface σ) : clientInterface (List Call × σ) where
  get := fun st context path k dest =>
    let r := c.get st.2 context path k dest
    ((st.1 ++ [⟨"GET", path, none, r.2.2⟩], r.1), r.2)
  post := fun st context path k dest body =>
    let r := c.post st.2 context path k dest body
    ((st.1 ++ [⟨"POST", path, some body, r.2.2⟩], r.1), r.2)

/-- The verb and path of a call. -/
def Call.line (c : Call) : String × String := (c.method, c.path)

/-- The JSON object of the body of a call (no members when there is no body). -/
def Call.json (c : Call) : List (String × Value) :=
  match c.body with
  | none => []
  | some body => Marshal body

/-! ## IDNA ToASCII -/

/-- Modelled from the spec: the strings.Split of a name at its dots, used by
ToASCII of golang.org/x/net/idna (not under src/) to find the labels. -/
def splitLabels : List Char → List (List Char)
  | [] => [[]]
  | c :: cs =>
    if c = '.' then [] :: splitLabels cs
    else
      match splitLabels cs with
      | [] => [[c]]
      | l :: ls => (c :: l) :: ls

/-- Modelled from the spec: the strings.Join of the labels with dots, used by
ToASCII of golang.org/x/net/idna (not under src/). -/
def joinLabels : List (List Char) → List Char
  | [] => []
  | [l] => l
  | l :: ls => l ++ '.' :: joinLabels ls

/-- Modelled from the spec: the ASCII characters, those below U+0080; a name of
these only is "already ASCII". -/
def isASCII (c : Char) : Bool := c.toNat < 128

/-- Modelled from the spec: the largest 32 bit signed integer, the bound of the
overflow check of Punycode (RFC 3492, 6.4). -/
def maxInt32 : Nat := 2147483647

/-- Modelled from the spec: digit `d` of the Punycode encoding (RFC 3492, 5),
`a` to `z` for 0 to 25 and `0` to `9` for 26 to 35. -/
def encodeDigit (d : Nat) : Char :=
  if d < 26 then Char.ofNat (97 + d) else Char.ofNat (48 + (d - 26))

/-- Modelled from the spec: the loop of the bias adaptation of Punycode (RFC
3492, 6.1), dividing `delta` by 35 while it is above 455. -/
def adaptLoop : Nat → Nat → Nat → Nat × Nat
  | 0, delta, k => (delta, k)
  | fuel + 1, delta, k =>
    if delta > 455 then adaptLoop fuel (delta / 35) (k + 36) else (delta, k)

/-- Modelled from the spec: the bias adaptation of Punycode (RFC 3492, 6.1). -/
def adapt (delta numPoints : Nat) (firstTime : Bool) : Nat :=
  let delta := if firstTime then delta / 700 else delta / 2
  let delta := delta + delta / numPoints
  let r := adaptLoop delta delta 0
  r.2 + 36 * r.1 / (r.1 + 38)

/-- Modelled from the spec: the digits of one delta as a generalized
variable-length integer (RFC 3492, 6.3), appended to the output. -/
def encodeDelta : Nat → Nat → Nat → Nat → List Char → List Char
  | 0, _, q, _, out => out ++ [encodeDigit q]
  | fuel + 1, bias, q, k, out =>
    let t := if k ≤ bias then 1 else if k ≥ bias + 26 then 26 else k - bias
    if q < t then out ++ [encodeDigit q]
    else
      encodeDelta fuel bias ((q - t) / (36 - t)) (k + 36)
        (out ++ [encodeDigit (t + (q - t) % (36 - t))])

/-- The state of the Punycode encoder: delta, bias, the number of code points
handled, the output so far, and whether an overflow was met. -/
structure PunyState where
  delta : Nat
  bias : Nat
  h : Nat
  out : List Char
  overflow : Bool

/-- Modelled from the spec: one pass of the Punycode encoder over the label
for the code point `n` (RFC 3492, 6.3): smaller code points add one to delta,
each occurrence of `n` is written out. `b` is the number of basic code points. -/
def encodePass (n b : Nat) : List Char → PunyState → PunyState
  | [], st => st
  | r :: rs, st =>
    if st.overflow then st
    else if r.toNat < n then
      if st.delta + 1 > maxInt32 then { st with overflow := true }
      else encodePass n b rs { st with delta := st.delta + 1 }
    else if r.toNat > n then encodePass n b rs st
    else
      encodePass n b rs
        { st with
          out := encodeDelta (st.delta + 1) st.bias st.delta 36 st.out
          bias := adapt st.delta (st.h + 1) (st.h == b)
          delta := 0
          h := st.h + 1 }

/-- Modelled from the spec: the least code point of the label that is at least
`n`, starting from `m`. -/
def nextCodePoint (n : Nat) : List Char → Nat → Nat
  | [], m => m
  | r :: rs, m => nextCodePoint n rs (if m > r.toNat && r.toNat ≥ n then r.toNat else m)

/-- Modelled from the spec: the main loop of the Punycode encoder (RFC 3492,
6.3), one round for each distinct code point that is not basic, in increasing
order; the result is `none` on overflow. -/
def encodeLoop (label : List Char) (b : Nat) : Nat → Nat → PunyState → Option (List Char)
  | 0, _, st => some st.out
  | fuel + 1, n, st =>
    if st.h ≥ label.length then some st.out
    else
      let m := nextCodePoint n label maxInt32
      if (m - n) * (st.h + 1) > maxInt32 - st.delta then none
      else
        let st := encodePass m b label { st with delta := st.delta + (m - n) * (st.h + 1) }
        if st.overflow then none
        else encodeLoop label b fuel (m + 1) { st with delta := st.delta + 1 }

/-- Modelled from the spec: the Punycode encoding of a label (RFC 3492): the
basic code points, a hyphen when there is one, then the deltas. -/
def encode (label : List Char) : Option (List Char) :=
  let basic := label.filter isASCII
  let out := if basic.length > 0 then basic ++ ['-'] else basic
  encodeLoop label basic.length label.length 128 ⟨0, 72, basic.length, out, false⟩

/-- Modelled from the spec: the value of a digit of the Punycode encoding (RFC
3492, 5), `0` to `9` for 26 to 35 and the letters of either case for 0 to 25;
`none` for any other character. -/
def decodeDigit (x : Char) : Option Nat :=
  if 48 ≤ x.toNat ∧ x.toNat ≤ 57 then some (x.toNat - 22)
  else if 65 ≤ x.toNat ∧ x.toNat ≤ 90 then some (x.toNat - 65)
  else if 97 ≤ x.toNat ∧ x.toNat ≤ 122 then some (x.toNat - 97)
  else none

/-- Modelled from the spec: the reading of one delta of the Punycode decoder
(RFC 3492, 6.2) off the digits: the new `i` and the digits left, `none` when
the digits end early, a character is no digit, or a 32 bit integer overflows. -/
def decodeDelta (bias : Nat) : List Char → Nat → Nat → Nat → Option (Nat × List Char)
  | [], _, _, _ => none
  | x :: rest, i, w, k =>
    match decodeDigit x with
    | none => none
    | some digit =>
      if digit * w > maxInt32 - i then none
      else
        let t := if k ≤ bias then 1 else if k ≥ bias + 26 then 26 else k - bias
        if digit < t then some (i + digit * w, rest)
        else if w * (36 - t) > maxInt32 then none
        else decodeDelta bias rest (i + digit * w) (w * (36 - t)) (k + 36)

/-- Modelled from the spec: the character of a decoded code point; a surrogate
becomes U+FFFD, as in the conversion of runes to a Go string. -/
def runeChar (n : Nat) : Char :=
  if 0xD800 ≤ n ∧ n ≤ 0xDFFF then Char.ofNat 0xFFFD else Char.ofNat n

/-- Modelled from the spec: the main loop of the Punycode decoder (RFC 3492,
6.2): each round reads one delta and inserts one code point into the output;
`none` on a bad delta, an output of 1024 code points, or a code point above
U+10FFFF. The first argument bounds the rounds; each round takes a digit, so
the number of digits is enough. -/
def decodeLoop : Nat → List Char → Nat → Nat → Nat → List Char → Option (List Char)
  | _, [], _, _, _, output => some output
  | 0, _ :: _, _, _, _, _ => none
  | fuel + 1, x :: rest, i, n, bias, output =>
    match decodeDelta bias (x :: rest) i 1 36 with
    | none => none
    | some (i2, rest2) =>
      if output.length ≥ 1024 then none
      else
        let len := output.length + 1
        let n2 := n + i2 / len
        if n2 > 0x10FFFF then none
        else
          decodeLoop fuel rest2 (i2 % len + 1) n2 (adapt (i2 - i) len (i == 0))
            (output.take (i2 % len) ++ runeChar n2 :: output.drop (i2 % len))

/-- Modelled from the spec: one more than the index of the last hyphen of a
string, 0 when it has none. -/
def afterLastHyphen (encoded : List Char) : Nat :=
  match encoded.reverse.indexOf? '-' with
  | none => 0
  | some j => encoded.length - j

/-- Modelled from the spec: the Punycode decoding of what follows `xn--` in a
label, as golang.org/x/net/idna (not under src/) does it: the empty string
decodes to itself, a string whose only hyphen is the first character is an
error, a string that ends in its last hyphen decodes to what is before it, and
else the code points before the last hyphen are the start of the output and
the digits after it are decoded. -/
def decode (encoded : List Char) : Option (List Char) :=
  if encoded = [] then some []
  else
    let pos := afterLastHyphen encoded
    if pos = 1 then none
    else if pos = encoded.length then some (encoded.take (encoded.length - 1))
    else
      decodeLoop (encoded.drop pos).length (encoded.drop pos) 0 128 72
        (if pos ≠ 0 then encoded.take (pos - 1) else [])

/-- Modelled from the spec: whether a label starts with `xn--`. -/
def hasACE (label : List Char) : Bool := "xn--".data.isPrefixOf label

/-- Modelled from the spec: the first pass of ToASCII on one label: a label
that starts with `xn--` is replaced by the decoding of the rest; when that
fails the label is kept and an error is reported. -/
def labelFromACE (label : List Char) : List Char × Option Error :=
  if hasACE label then
    match decode (label.drop 4) with
    | some u => (u, none)
    | none => (label, some ⟨"idna: invalid label"⟩)
  else (label, none)

/-- Modelled from the spec: the second pass of ToASCII on one label: a label of
ASCII characters is kept, any other is replaced by `xn--` and its Punycode
encoding; when the encoding overflows the label is empty and an error is
reported. -/
def labelToASCII (label : List Char) : List Char × Option Error :=
  if label.all isASCII then (label, none)
  else
    match encode label with
    | some a => ("xn--".data ++ a, none)
    | none => ([], some ⟨"idna: invalid label"⟩)

/-- The first error of a list of results. -/
def firstError : List (Option Error) → Option Error
  | [] => none
  | some e :: _ => some e
  | none :: es => firstError es

/-- Modelled from the spec: `idna.New().ToASCII` of golang.org/x/net/idna, which
is not under src/: "IDNA ToASCII", the "standard for encoding non-ASCII domain
labels into ASCII-compatible form", as the library does it for a profile with
no option: no mapping and no validation of the labels. The name is split into
labels at the dots; a first pass decodes the labels that start with `xn--`, a
second pass encodes the labels that are not ASCII, and the labels are joined
again. The error is the first one met, those of the first pass before those of
the second; the text of the error leaves out the quoted label. -/
def ToASCII (s : String) : String × Option Error :=
  let decoded := (splitLabels s.data).map labelFromACE
  let encoded := (decoded.map fun r => r.1).map labelToASCII
  (String.mk (joinLabels (encoded.map fun r => r.1)),
    firstError ((decoded.map fun r => r.2) ++ encoded.map fun r => r.2))

/-- Modelled from the spec: the profile `idna.New()` of golang.org/x/net/idna
(not under src/), whose ToASCII is the one above. -/
def idnaNew : Profile := ⟨ToASCII⟩

/-! ## Collaborators used as concrete instances -/

/-- The service over the collaborator `c` with a log of its calls. -/
def logged (c : clientInterface σ) : DomainService (List Call × σ) := ⟨recording c⟩

/-- A collaborator without state that writes nothing to the destination and
reports `err`. -/
def idleClient (err : Option Error) : clientInterface Unit where
  get := fun st _ _ _ dest => (st, dest, err)
  post := fun st _ _ _ dest _ => (st, dest, err)

/-- A collaborator without state that succeeds and delivers `answer` into the
destination, whatever the call. -/
def envelopeClient (answer : (k : DestKind) → k.Target) : clientInterface Unit where
  get := fun st _ _ k _ => (st, answer k, none)
  post := fun st _ _ k _ _ => (st, answer k, none)

/-- The envelope of TestDomainsAdd, a domain named sysgle.se, for a domain
destination; an empty array for the list destinations. -/
def sysgleEnvelope : (k : DestKind) → k.Target
  | .nil => ()
  | .domain => ({ Response := { Domain := { DomainName := "sysgle.se" } } } : DomainData)
  | .domainRecord => ({} : DomainRecordData)
  | .domains => ({ Response := { Domains := [] } } : DomainsData)
  | .domainRecords => ({ Response := { DomainRecord := [] } } : DomainRecordsData)

/-- A label of 2000 letters followed by U+10FFFF, on which the Punycode
encoder overflows. -/
def longLabel : List Char := List.replicate 2000 'a' ++ [Char.ofNat 0x10FFFF]

/-! ## Lemmas on marshalling -/

theorem marshal_AddDomainRecordParams_domainname (p : AddDomainRecordParams) :
    lookupAll "domainname" (Marshal p.fields) = [.string p.DomainName] := by
  have h : typeFields p.fields = p.fields := rfl
  simp only [Marshal, h]
  simp [lookupAll, AddDomainRecordParams.fields, StructField.key, Value.isEmptyValue]

theorem marshal_domainname_struct (d : String) :
    Marshal [⟨"DomainName", "domainname", false, 0, .string d⟩] = [("domainname", .string d)] := by
  rfl

theorem marshal_EditDomain_body (p : EditDomainParams) (d : String) :
    Marshal (embedded p.fields ++ [⟨"DomainName", "domainname", false, 0, .string d⟩]) =
      [("primarynameserver", .string p.PrimaryNameServer),
       ("responsibleperson", .string p.ResponsiblePerson),
       ("ttl", .string p.TTL), ("refresh", .string p.Refresh), ("retry", .string p.Retry),
       ("expire", .string p.Expire), ("minimum", .string p.Minimum),
       ("domainname", .string d)] := by
  rfl

theorem marshal_DeleteRecord_body (i : Int) :
    Marshal [⟨"recordID", "recordid", false, 0, .int i⟩] = [] := by
  rfl

theorem marshal_UpdateRecord_body (p : UpdateDomainRecordParams) (i : Int) :
    Marshal (embedded p.fields ++ [⟨"recordID", "recordid", false, 0, .int i⟩]) =
      [("domainname", .int p.RecordId), ("primarynameserver", .string p.Host),
       ("responsibleperson", .string p.Type_), ("ttl", .string p.Data),
       ("refresh", .int p.TTL)] := by
  rfl

/-! ## Lemmas on ToASCII -/

theorem splitLabels_noDot (l : List Char) (h : ∀ c ∈ l, c ≠ '.') : splitLabels l = [l] := by
  induction l with
  | nil => rfl
  | cons c cs ih =>
    have hc : c ≠ '.' := h c (List.mem_cons_self _ _)
    have hcs := ih fun x hx => h x (List.mem_cons_of_mem _ hx)
    simp [splitLabels, hc, hcs]

theorem nextCodePoint_replicate (n k m : Nat) (c : Char) (rest : List Char)
    (h : c.toNat < n) :
    nextCodePoint n (List.replicate k c ++ rest) m = nextCodePoint n rest m := by
  induction k with
  | zero => rfl
  | succ k ih =>
    have : ¬ n ≤ c.toNat := by omega
    simp [List.replicate_succ, nextCodePoint, this, ih]

theorem encode_overflow (l : List Char) (n : Nat) (hn : (l.filter isASCII).length = n)
    (hl : l.length = n + 1)
    (hm : (nextCodePoint 128 l maxInt32 - 128) * (n + 1) > maxInt32) : encode l = none := by
  simp only [encode, hn, hl]
  rw [encodeLoop]
  simp only [hl]
  rw [if_neg (by omega), if_pos (by simpa using hm)]

theorem ToASCII_overflow (l : List Char) (n : Nat) (hdot : ∀ c ∈ l, c ≠ '.')
    (hace : hasACE l = false)
    (hn : (l.filter isASCII).length = n) (hl : l.length = n + 1)
    (hm : (nextCodePoint 128 l maxInt32 - 128) * (n + 1) > maxInt32) :
    (ToASCII (String.mk l)).2 = some ⟨"idna: invalid label"⟩ := by
  have hall : l.all isASCII = false := by
    by_contra h
    have h2 : l.all isASCII = true := by simpa using h
    have : l.filter isASCII = l := List.filter_eq_self.2 (List.all_eq_true.1 h2)
    rw [this] at hn; omega
  simp [ToASCII, splitLabels_noDot l hdot, labelFromACE, hace, labelToASCII, hall,
    encode_overflow l n hn hl hm, firstError]

/-- ToASCII reports an error on the long label. -/
theorem ToASCII_longLabel : (ToASCII (String.mk longLabel)).2 = some ⟨"idna: invalid label"⟩ := by
  apply ToASCII_overflow _ 2000
  · intro c hc
    rcases List.mem_append.1 hc with h | h
    · rw [List.eq_of_mem_replicate h]; decide
    · rw [List.mem_singleton.1 h]; decide
  · rfl
  · unfold longLabel
    rw [List.filter_append]
    have h1 : (List.replicate 2000 'a').filter isASCII = List.replicate 2000 'a' := by
      apply List.filter_eq_self.2
      intro c hc
      rw [List.eq_of_mem_replicate hc]; decide
    have h2 : [Char.ofNat 0x10FFFF].filter isASCII = [] := by decide
    rw [h1, h2, List.append_nil, List.length_replicate]
  · unfold longLabel
    rw [List.length_append, List.length_replicate]; rfl
  · unfold longLabel
    rw [nextCodePoint_replicate 128 2000 maxInt32 'a' _ (by decide)]
    decide

/-! ## Properties of the service -/

/-- C1: each of the nine operations, run over a collaborator that records its
calls, adds exactly one call to the log, and that call has the documented verb
and path; the path of Details ends in the normalized domain name. -/
theorem one_call_with_documented_verb_and_path (idna : Profile) (c : clientInterface σ)
    (log : List Call) (st : σ) (ctx : Context) (ap : AddDomainParams)
    (rp : AddDomainRecordParams) (name : String) (recordID : Int) (ep : EditDomainParams)
    (up : UpdateDomainRecordParams) :
    (∃ call, ((logged c).AddDomain idna (log, st) ctx ap).1.1 = log ++ [call] ∧
      call.line = ("POST", "domain/add")) ∧
    (∃ call, ((logged c).AddRecord idna (log, st) ctx rp).1.1 = log ++ [call] ∧
      call.line = ("POST", "domain/addrecord")) ∧
    (∃ call, ((logged c).Details idna (log, st) ctx name).1.1 = log ++ [call] ∧
      call.line = ("GET", "domain/details/domainname/" ++ (idna.ToASCII name).1)) ∧
    (∃ call, ((logged c).DeleteDomain idna (log, st) ctx name).1.1 = log ++ [call] ∧
      call.line = ("POST", "domain/delete")) ∧
    (∃ call, ((logged c).DeleteRecord idna (log, st) ctx recordID).1.1 = log ++ [call] ∧
      call.line = ("POST", "domain/deleterecord")) ∧
    (∃ call, ((logged c).EditDomain idna (log, st) ctx name ep).1.1 = log ++ [call] ∧
      call.line = ("POST", "domain/edit")) ∧
    (∃ call, ((logged c).UpdateRecord idna (log, st) ctx recordID up).1.1 = log ++ [call] ∧
      call.line = ("POST", "domain/updaterecord")) ∧
    (∃ call, ((logged c).List idna (log, st) ctx).1.1 = log ++ [call] ∧
      call.line = ("GET", "domain/list")) ∧
    (∃ call, ((logged c).ListRecords idna (log, st) ctx name).1.1 = log ++ [call] ∧
      call.line = ("POST", "domain/listrecords")) :=
  ⟨⟨_, rfl, rfl⟩, ⟨_, rfl, rfl⟩, ⟨_, rfl, rfl⟩, ⟨_, rfl, rfl⟩, ⟨_, rfl, rfl⟩, ⟨_, rfl, rfl⟩,
    ⟨_, rfl, rfl⟩, ⟨_, rfl, rfl⟩, ⟨_, rfl, rfl⟩⟩

/-- C2: AddRecord and ListRecords hand the domain name to the collaborator as
the caller gave it, whatever ToASCII would make of it: the domainname member of
the body is the raw name. On the name bücher.example.com the ToASCII form is
xn--bcher-kva.example.com, which is not what is sent. -/
theorem AddRecord_ListRecords_send_raw_name (idna : Profile) (c : clientInterface σ)
    (log : List Call) (st : σ) (ctx : Context) (rp : AddDomainRecordParams) (name : String) :
    (∃ call, ((logged c).AddRecord idna (log, st) ctx rp).1.1 = log ++ [call] ∧
      lookupAll "domainname" call.json = [.string rp.DomainName]) ∧
    (∃ call, ((logged c).ListRecords idna (log, st) ctx name).1.1 = log ++ [call] ∧
      lookupAll "domainname" call.json = [.string name]) ∧
    (idnaNew.ToASCII "bücher.example.com").1 = "xn--bcher-kva.example.com" ∧
    (idnaNew.ToASCII "bücher.example.com").1 ≠ "bücher.example.com" := by
  refine ⟨⟨_, rfl, ?_⟩, ⟨_, rfl, ?_⟩, ?_, ?_⟩
  · exact marshal_AddDomainRecordParams_domainname rp
  · rfl
  · decide
  · decide

/-- C3: the JSON body EditDomain posts to domain/edit holds the seven other
fields of the params and, under domainname, the normalized path domain name
only: the DomainName of the params is not in the body. With the path name old.se
and the params name new.se, the body names old.se and nothing holds new.se. -/
theorem EditDomain_body_drops_params_DomainName (idna : Profile) (c : clientInterface σ)
    (log : List Call) (st : σ) (ctx : Context) (name : String) (ep : EditDomainParams) :
    (∃ call, ((logged c).EditDomain idna (log, st) ctx name ep).1.1 = log ++ [call] ∧
      call.line = ("POST", "domain/edit") ∧
      call.json =
        [("primarynameserver", .string ep.PrimaryNameServer),
         ("responsibleperson", .string ep.ResponsiblePerson),
         ("ttl", .string ep.TTL), ("refresh", .string ep.Refresh),
         ("retry", .string ep.Retry), ("expire", .string ep.Expire),
         ("minimum", .string ep.Minimum),
         ("domainname", .string (idna.ToASCII name).1)]) ∧
    (∃ call, ((logged (idleClient none)).EditDomain idnaNew ([], ()) ⟨false⟩ "old.se"
        { DomainName := "new.se" }).1.1 = [call] ∧
      lookupAll "domainname" call.json = [.string "old.se"] ∧
      (call.json.map fun m => m.2).contains (.string "new.se") = false) := by
  refine ⟨⟨_, rfl, rfl, ?_⟩, ⟨_, rfl, ?_, ?_⟩⟩
  · exact marshal_EditDomain_body _ _
  · decide
  · decide

/-- C4: the JSON body DeleteRecord posts to domain/deleterecord has no member at
all, and the one UpdateRecord posts to domain/updaterecord has the five fields
of the params under the keys of their tags: neither has a key recordid, for the
field recordID of both anonymous structs is not exported. -/
theorem DeleteRecord_UpdateRecord_body_has_no_recordid (idna : Profile)
    (c : clientInterface σ) (log : List Call) (st : σ) (ctx : Context) (recordID : Int)
    (up : UpdateDomainRecordParams) :
    (∃ call, ((logged c).DeleteRecord idna (log, st) ctx recordID).1.1 = log ++ [call] ∧
      call.line = ("POST", "domain/deleterecord") ∧ call.json = [] ∧
      lookupAll "recordid" call.json = []) ∧
    (∃ call, ((logged c).UpdateRecord idna (log, st) ctx recordID up).1.1 = log ++ [call] ∧
      call.line = ("POST", "domain/updaterecord") ∧
      call.json =
        [("domainname", .int up.RecordId), ("primarynameserver", .string up.Host),
         ("responsibleperson", .string up.Type_), ("ttl", .string up.Data),
         ("refresh", .int up.TTL)] ∧
      lookupAll "recordid" call.json = []) := by
  refine ⟨⟨_, rfl, rfl, ?_, ?_⟩, ⟨_, rfl, rfl, ?_, ?_⟩⟩
  · exact marshal_DeleteRecord_body _
  · show lookupAll "recordid" (Marshal _) = []
    rw [marshal_DeleteRecord_body]; rfl
  · exact marshal_UpdateRecord_body _ _
  · show lookupAll "recordid" (Marshal _) = []
    rw [marshal_UpdateRecord_body]; rfl

/-- C5: when the call of AddDomain succeeds and leaves in the destination a
domain whose domainname is `d`, AddDomain returns a pointer to exactly the
domain the collaborator left under response.domain, whose DomainName is `d`,
and a nil error. -/
theorem AddDomain_returns_decoded_domain (idna : Profile) (s : DomainService σ) (st : σ)
    (ctx : Context) (params : AddDomainParams) (d : String)
    (hok : (s.client.post st ctx "domain/add" .domain ({} : DomainData)
      ({ params with DomainName := (idna.ToASCII params.DomainName).1 }).fields).2.2 = none)
    (hname : ((s.client.post st ctx "domain/add" .domain ({} : DomainData)
      ({ params with DomainName := (idna.ToASCII params.DomainName).1 }).fields).2.1
        : DomainData).Response.Domain.DomainName = d) :
    ∃ domain : Domain,
      (s.AddDomain idna st ctx params).2 = (some domain, none) ∧
      domain.DomainName = d ∧
      domain = ((s.client.post st ctx "domain/add" .domain ({} : DomainData)
        ({ params with DomainName := (idna.ToASCII params.DomainName).1 }).fields).2.1
          : DomainData).Response.Domain := by
  refine ⟨_, ?_, hname, rfl⟩
  exact Prod.ext rfl hok

/-- The witness of C5: the test TestDomainsAdd, with sysgle.se. -/
theorem AddDomain_returns_decoded_domain_witness :
    ∃ domain : Domain,
      ((⟨envelopeClient sysgleEnvelope⟩ : DomainService Unit).AddDomain idnaNew () ⟨false⟩
        { DomainName := "sysgle.se" }).2 = (some domain, none) ∧
      domain.DomainName = "sysgle.se" ∧
      domain = ({ DomainName := "sysgle.se" } : Domain) :=
  AddDomain_returns_decoded_domain idnaNew ⟨envelopeClient sysgleEnvelope⟩ () ⟨false⟩
    { DomainName := "sysgle.se" } "sysgle.se" rfl rfl

/-- C6: the error each of the nine operations returns is the error its one
collaborator call returned, as it is: nil exactly when the collaborator
reported success, and else the error of the collaborator. So DeleteDomain of
sysgle.se returns a nil error over a collaborator that succeeds. -/
theorem operations_return_collaborator_error (idna : Profile) (c : clientInterface σ)
    (log : List Call) (st : σ) (ctx : Context) (ap : AddDomainParams)
    (rp : AddDomainRecordParams) (name : String) (recordID : Int) (ep : EditDomainParams)
    (up : UpdateDomainRecordParams) :
    (∃ call, ((logged c).AddDomain idna (log, st) ctx ap).1.1 = log ++ [call] ∧
      ((logged c).AddDomain idna (log, st) ctx ap).2.2 = call.err) ∧
    (∃ call, ((logged c).AddRecord idna (log, st) ctx rp).1.1 = log ++ [call] ∧
      ((logged c).AddRecord idna (log, st) ctx rp).2.2 = call.err) ∧
    (∃ call, ((logged c).Details idna (log, st) ctx name).1.1 = log ++ [call] ∧
      ((logged c).Details idna (log, st) ctx name).2.2 = call.err) ∧
    (∃ call, ((logged c).DeleteDomain idna (log, st) ctx name).1.1 = log ++ [call] ∧
      ((logged c).DeleteDomain idna (log, st) ctx name).2 = call.err) ∧
    (∃ call, ((logged c).DeleteRecord idna (log, st) ctx recordID).1.1 = log ++ [call] ∧
      ((logged c).DeleteRecord idna (log, st) ctx recordID).2 = call.err) ∧
    (∃ call, ((logged c).EditDomain idna (log, st) ctx name ep).1.1 = log ++ [call] ∧
      ((logged c).EditDomain idna (log, st) ctx name ep).2.2 = call.err) ∧
    (∃ call, ((logged c).UpdateRecord idna (log, st) ctx recordID up).1.1 = log ++ [call] ∧
      ((logged c).UpdateRecord idna (log, st) ctx recordID up).2.2 = call.err) ∧
    (∃ call, ((logged c).List idna (log, st) ctx).1.1 = log ++ [call] ∧
      ((logged c).List idna (log, st) ctx).2.2 = call.err) ∧
    (∃ call, ((logged c).ListRecords idna (log, st) ctx name).1.1 = log ++ [call] ∧
      ((logged c).ListRecords idna (log, st) ctx name).2.2 = call.err) ∧
    ((logged (idleClient none)).DeleteDomain idnaNew ([], ()) ⟨false⟩ "sysgle.se").2 = none :=
  ⟨⟨_, rfl, rfl⟩, ⟨_, rfl, rfl⟩, ⟨_, rfl, rfl⟩, ⟨_, rfl, rfl⟩, ⟨_, rfl, rfl⟩, ⟨_, rfl, rfl⟩,
    ⟨_, rfl, rfl⟩, ⟨_, rfl, rfl⟩, ⟨_, rfl, rfl⟩, rfl⟩

/-- C7: the result pointer of each of the seven operations that return a result
is never nil, whatever the error; and when the collaborator call leaves the
destination as it was, the pointer is to the zero value of the result type. -/
theorem result_pointer_never_nil (idna : Profile) (s : DomainService σ) (st : σ)
    (ctx : Context) (ap : AddDomainParams) (rp : AddDomainRecordParams) (name : String)
    (recordID : Int) (ep : EditDomainParams) (up : UpdateDomainRecordParams) :
    ((s.AddDomain idna st ctx ap).2.1 ≠ none ∧
      ((s.client.post st ctx "domain/add" .domain ({} : DomainData)
          ({ ap with DomainName := (idna.ToASCII ap.DomainName).1 }).fields).2.1
            = ({} : DomainData) →
        (s.AddDomain idna st ctx ap).2.1 = some ({} : Domain))) ∧
    ((s.AddRecord idna st ctx rp).2.1 ≠ none ∧
      ((s.client.post st ctx "domain/addrecord" .domainRecord ({} : DomainRecordData)
          rp.fields).2.1 = ({} : DomainRecordData) →
        (s.AddRecord idna st ctx rp).2.1 = some ({} : DomainRecord))) ∧
    ((s.Details idna st ctx name).2.1 ≠ none ∧
      ((s.client.get st ctx ("domain/details/domainname/" ++ (idna.ToASCII name).1) .domain
          ({} : DomainData)).2.1 = ({} : DomainData) →
        (s.Details idna st ctx name).2.1 = some ({} : Domain))) ∧
    ((s.EditDomain idna st ctx name ep).2.1 ≠ none ∧
      ((s.client.post st ctx "domain/edit" .domain ({} : DomainData)
          (embedded ({ ep with DomainName := (idna.ToASCII ep.DomainName).1 }).fields ++
            [⟨"DomainName", "domainname", false, 0, .string (idna.ToASCII name).1⟩])).2.1
              = ({} : DomainData) →
        (s.EditDomain idna st ctx name ep).2.1 = some ({} : Domain))) ∧
    ((s.UpdateRecord idna st ctx recordID up).2.1 ≠ none ∧
      ((s.client.post st ctx "domain/updaterecord" .domainRecord ({} : DomainRecordData)
          (embedded up.fields ++ [⟨"recordID", "recordid", false, 0, .int recordID⟩])).2.1
            = ({} : DomainRecordData) →
        (s.UpdateRecord idna st ctx recordID up).2.1 = some ({} : DomainRecord))) ∧
    ((s.List idna st ctx).2.1 ≠ none ∧
      ((s.client.get st ctx "domain/list" .domains ({} : DomainsData)).2.1
          = ({} : DomainsData) →
        (s.List idna st ctx).2.1 = some ([] : Slice Domain))) ∧
    ((s.ListRecords idna st ctx name).2.1 ≠ none ∧
      ((s.client.post st ctx "domain/listrecords" .domainRecords ({} : DomainRecordsData)
          [⟨"DomainName", "domainname", false, 0, .string name⟩]).2.1
            = ({} : DomainRecordsData) →
        (s.ListRecords idna st ctx name).2.1 = some ([] : Slice DomainRecord))) := by
  refine ⟨⟨?_, ?_⟩, ⟨?_, ?_⟩, ⟨?_, ?_⟩, ⟨?_, ?_⟩, ⟨?_, ?_⟩, ⟨?_, ?_⟩, ⟨?_, ?_⟩⟩
  · exact Option.some_ne_none _
  · intro h
    show some (DomainData.Response _).Domain = _
    rw [h]
  · exact Option.some_ne_none _
  · intro h
    show some (DomainRecordData.Response _).DomainRecord = _
    rw [h]
  · exact Option.some_ne_none _
  · intro h
    show some (DomainData.Response _).Domain = _
    rw [h]
  · exact Option.some_ne_none _
  · intro h
    show some (DomainData.Response _).Domain = _
    rw [h]
  · exact Option.some_ne_none _
  · intro h
    show some (DomainRecordData.Response _).DomainRecord = _
    rw [h]
  · exact Option.some_ne_none _
  · intro h
    show some (DomainsData.Response _).Domains = _
    rw [h]
  · exact Option.some_ne_none _
  · intro h
    show some (DomainRecordsData.Response _).DomainRecord = _
    rw [h]

/-- The witness of C7: over a collaborator that writes nothing and reports an
error, every result is a pointer to the zero value, next to that error. -/
theorem result_pointer_never_nil_witness :
    ((⟨idleClient (some ⟨"boom"⟩)⟩ : DomainService Unit).AddDomain idnaNew () ⟨false⟩
        { DomainName := "sysgle.se" }).2 = (some ({} : Domain), some ⟨"boom"⟩) ∧
    ((⟨idleClient (some ⟨"boom"⟩)⟩ : DomainService Unit).AddRecord idnaNew () ⟨false⟩
        { DomainName := "sysgle.se" }).2.1 = some ({} : DomainRecord) ∧
    ((⟨idleClient (some ⟨"boom"⟩)⟩ : DomainService Unit).Details idnaNew () ⟨false⟩
        "sysgle.se").2.1 = some ({} : Domain) ∧
    ((⟨idleClient (some ⟨"boom"⟩)⟩ : DomainService Unit).EditDomain idnaNew () ⟨false⟩
        "sysgle.se" {}).2.1 = some ({} : Domain) ∧
    ((⟨idleClient (some ⟨"boom"⟩)⟩ : DomainService Unit).UpdateRecord idnaNew () ⟨false⟩
        7 {}).2.1 = some ({} : DomainRecord) ∧
    ((⟨idleClient (some ⟨"boom"⟩)⟩ : DomainService Unit).List idnaNew () ⟨false⟩).2.1
        = some ([] : Slice Domain) ∧
    ((⟨idleClient (some ⟨"boom"⟩)⟩ : DomainService Unit).ListRecords idnaNew () ⟨false⟩
        "sysgle.se").2.1 = some ([] : Slice DomainRecord) :=
  have h := result_pointer_never_nil idnaNew (⟨idleClient (some ⟨"boom"⟩)⟩ : DomainService Unit)
    () ⟨false⟩ { DomainName := "sysgle.se" } { DomainName := "sysgle.se" } "sysgle.se" 7 {} {}
  ⟨Prod.ext (h.1.2 rfl) rfl, h.2.1.2 rfl, h.2.2.1.2 rfl, h.2.2.2.1.2 rfl, h.2.2.2.2.1.2 rfl,
    h.2.2.2.2.2.1.2 rfl, h.2.2.2.2.2.2.2 rfl⟩

/-- C8: when the call succeeds and leaves an empty array in the destination,
List returns a sequence of length 0 and a nil error, and so does ListRecords
for every domain name. -/
theorem empty_array_gives_empty_sequence (idna : Profile) (s : DomainService σ) (st : σ)
    (ctx : Context) (name : String)
    (hList : (s.client.get st ctx "domain/list" .domains ({} : DomainsData)).2
      = (({ Response := { Domains := [] } } : DomainsData), none))
    (hRecords : (s.client.post st ctx "domain/listrecords" .domainRecords
        ({} : DomainRecordsData) [⟨"DomainName", "domainname", false, 0, .string name⟩]).2
      = (({ Response := { DomainRecord := [] } } : DomainRecordsData), none)) :
    (∃ domains : Slice Domain, (s.List idna st ctx).2 = (some domains, none) ∧
      domains.length = 0) ∧
    (∃ records : Slice DomainRecord, (s.ListRecords idna st ctx name).2 = (some records, none) ∧
      records.length = 0) := by
  refine ⟨⟨[], ?_, rfl⟩, ⟨[], ?_, rfl⟩⟩
  · show (some (DomainsData.Response _).Domains, _) = _
    rw [hList]
  · show (some (DomainRecordsData.Response _).DomainRecord, _) = _
    rw [hRecords]

/-- The witness of C8: a collaborator that succeeds and delivers empty arrays. -/
theorem empty_array_gives_empty_sequence_witness :
    (∃ domains : Slice Domain,
      ((⟨envelopeClient sysgleEnvelope⟩ : DomainService Unit).List idnaNew () ⟨false⟩).2
        = (some domains, none) ∧ domains.length = 0) ∧
    (∃ records : Slice DomainRecord,
      ((⟨envelopeClient sysgleEnvelope⟩ : DomainService Unit).ListRecords idnaNew () ⟨false⟩
        "sysgle.se").2 = (some records, none) ∧ records.length = 0) :=
  empty_array_gives_empty_sequence idnaNew ⟨envelopeClient sysgleEnvelope⟩ () ⟨false⟩
    "sysgle.se" rfl rfl

/-- C10: for a domain name on which ToASCII reports an error, AddDomain,
Details, DeleteDomain and EditDomain still make their one collaborator call,
with the string ToASCII gave next to the error, and the error they return is
the error of that call alone. -/
theorem normalization_error_is_swallowed (idna : Profile) (c : clientInterface σ)
    (log : List Call) (st : σ) (ctx : Context) (name : String) (ap : AddDomainParams)
    (ep : EditDomainParams) (_h : (idna.ToASCII name).2 ≠ none) :
    (∃ call, ((logged c).AddDomain idna (log, st) ctx { ap with DomainName := name }).1.1
        = log ++ [call] ∧
      call.line = ("POST", "domain/add") ∧
      call.body = some ({ ap with DomainName := (idna.ToASCII name).1 }).fields ∧
      ((logged c).AddDomain idna (log, st) ctx { ap with DomainName := name }).2.2
        = call.err) ∧
    (∃ call, ((logged c).Details idna (log, st) ctx name).1.1 = log ++ [call] ∧
      call.line = ("GET", "domain/details/domainname/" ++ (idna.ToASCII name).1) ∧
      ((logged c).Details idna (log, st) ctx name).2.2 = call.err) ∧
    (∃ call, ((logged c).DeleteDomain idna (log, st) ctx name).1.1 = log ++ [call] ∧
      call.line = ("POST", "domain/delete") ∧
      call.json = [("domainname", .string (idna.ToASCII name).1)] ∧
      ((logged c).DeleteDomain idna (log, st) ctx name).2 = call.err) ∧
    (∃ call, ((logged c).EditDomain idna (log, st) ctx name { ep with DomainName := name }).1.1
        = log ++ [call] ∧
      call.line = ("POST", "domain/edit") ∧
      lookupAll "domainname" call.json = [.string (idna.ToASCII name).1] ∧
      ((logged c).EditDomain idna (log, st) ctx name { ep with DomainName := name }).2.2
        = call.err) := by
  refine ⟨⟨_, rfl, rfl, rfl, rfl⟩, ⟨_, rfl, rfl, rfl⟩, ⟨_, rfl, rfl, ?_, rfl⟩,
    ⟨_, rfl, rfl, ?_, rfl⟩⟩
  · exact marshal_domainname_struct _
  · show lookupAll "domainname" (Marshal _) = _
    rw [marshal_EditDomain_body]
    rfl

/-- The witness of C10: on the long label ToASCII reports an error, and
DeleteDomain over a collaborator that succeeds makes its one call, with the
string ToASCII gave, and returns the error of that call. -/
theorem normalization_error_is_swallowed_witness :
    (idnaNew.ToASCII (String.mk longLabel)).2 ≠ none ∧
    (∃ call, ((logged (idleClient none)).DeleteDomain idnaNew ([], ()) ⟨false⟩
        (String.mk longLabel)).1.1 = [] ++ [call] ∧
      call.line = ("POST", "domain/delete") ∧
      call.json = [("domainname", .string (idnaNew.ToASCII (String.mk longLabel)).1)] ∧
      ((logged (idleClient none)).DeleteDomain idnaNew ([], ()) ⟨false⟩
        (String.mk longLabel)).2 = call.err) :=
  have herr : (idnaNew.ToASCII (String.mk longLabel)).2 ≠ none := by
    show (ToASCII (String.mk longLabel)).2 ≠ none
    rw [ToASCII_longLabel]
    exact Option.some_ne_none _
  ⟨herr, (normalization_error_is_swallowed idnaNew (idleClient none) [] () ⟨false⟩
    (String.mk longLabel) {} {} herr).2.2.1⟩

end Glesys
